import Mathlib

/-!
Shallow embedding of the Cloudflare-binding mock library
(`src/cloudflare/kv.ts`, `src/cloudflare/d1.ts`, `src/cloudflare/fetcher.ts`,
`src/cloudflare/analytics.ts`, and the R2 bucket mock), together with proofs
settling the behavioural claims about it.

Modelling conventions:
- JavaScript `Map` objects are modelled as insertion-ordered association
  lists (`List (String × α)`): `set` on an existing key updates it in place,
  `set` on a fresh key appends, `delete` removes, and iteration follows the
  list order — exactly the iteration contract of a JS `Map`.
- Timestamps (seconds) are naturals; each operation receives its single
  snapshot timestamp as an explicit argument, mirroring the one
  `Date.now()` read taken at the top of the corresponding method body.
- Opaque `unknown` metadata values are modelled as naturals (no claim
  inspects their content, only presence and identity).
-/

/-- Lookup in a JS-`Map`-like association list (first matching key). -/
def mapGet {α : Type} (m : List (String × α)) (k : String) : Option α :=
  match m with
  | [] => none
  | (k', v) :: rest => if k' = k then some v else mapGet rest k

/-- JS `Map.set`: update an existing key in place, else append at the end. -/
def mapSet {α : Type} (m : List (String × α)) (k : String) (v : α) :
    List (String × α) :=
  match m with
  | [] => [(k, v)]
  | (k', v') :: rest =>
      if k' = k then (k, v) :: rest else (k', v') :: mapSet rest k v

/-- JS `Map.delete`: remove the entry for `k`. -/
def mapDelete {α : Type} (m : List (String × α)) (k : String) :
    List (String × α) :=
  match m with
  | [] => []
  | (k', v) :: rest =>
      if k' = k then mapDelete rest k else (k', v) :: mapDelete rest k

theorem mapGet_mapSet_self {α : Type} (m : List (String × α)) (k : String)
    (v : α) : mapGet (mapSet m k v) k = some v := by
  induction m with
  | nil => simp [mapGet, mapSet]
  | cons hd tl ih =>
      obtain ⟨k', v'⟩ := hd
      by_cases h : k' = k
      · simp [mapGet, mapSet, h]
      · simp [mapGet, mapSet, h, ih]

theorem mapGet_mapDelete_self {α : Type} (m : List (String × α)) (k : String) :
    mapGet (mapDelete m k) k = none := by
  induction m with
  | nil => simp [mapGet, mapDelete]
  | cons hd tl ih =>
      obtain ⟨k', v'⟩ := hd
      by_cases h : k' = k
      · simpa [mapDelete, h] using ih
      · simpa [mapDelete, mapGet, h] using ih

theorem mapGet_mapDelete_ne {α : Type} (m : List (String × α)) (k k' : String)
    (h : k' ≠ k) : mapGet (mapDelete m k') k = mapGet m k := by
  induction m with
  | nil => simp [mapGet, mapDelete]
  | cons hd tl ih =>
      obtain ⟨k₀, v₀⟩ := hd
      by_cases h0 : k₀ = k'
      · have h1 : ¬(k₀ = k) := fun hk => h (h0 ▸ hk)
        simp [mapDelete, mapGet, h0, h1, h, ih]
      · by_cases h1 : k₀ = k
        · subst h1
          simp [mapDelete, mapGet, h0]
        · simp [mapDelete, mapGet, h0, h1, ih]

/-! ## KeyValueStore (`src/cloudflare/kv.ts`, corrected revision)

State of `createMockKV()`: the three maps `store`, `ttls`, `metadata`. -/

structure KVState where
  store : List (String × String)
  ttls : List (String × Nat)
  metadata : List (String × Nat)
deriving DecidableEq, Repr

/-- Options object of `put` (`expirationTtl` / `expiration` / `metadata`). -/
structure KVPutOptions where
  expirationTtl : Option Nat
  expiration : Option Nat
  metadata : Option Nat
deriving DecidableEq, Repr

/-- JS truthiness of an optional numeric option field:
`undefined` and `0` are falsy. -/
def truthyNum (o : Option Nat) : Bool :=
  match o with
  | none => false
  | some n => n != 0

/-- `isExpiredAt(key, nowSeconds)`: expired iff a TTL is recorded and
`nowSeconds > expiration` (strict). -/
def isExpiredAt (s : KVState) (k : String) (nowSeconds : Nat) : Bool :=
  match mapGet s.ttls k with
  | none => false
  | some e => decide (e < nowSeconds)

/-- `cleanupKey(key)`: remove the key from all three maps. -/
def cleanupKey (s : KVState) (k : String) : KVState :=
  ⟨mapDelete s.store k, mapDelete s.ttls k, mapDelete s.metadata k⟩

/-- `get(key)` at snapshot `nowSeconds`: if expired, clean up and return
`null`; otherwise return the stored value (or `null`).  The `type: 'json'`
branch only re-parses the returned string (falling back to the raw string)
and is orthogonal to every claim, so the default text path is modelled. -/
def kvGet (s : KVState) (k : String) (nowSeconds : Nat) :
    Option String × KVState :=
  if isExpiredAt s k nowSeconds then (none, cleanupKey s k)
  else (mapGet s.store k, s)

/-- `put(key, value, options)` at snapshot `nowSeconds`.  A truthy
`expirationTtl` sets an absolute expiry `now + ttl`; otherwise a truthy
`expiration` is stored as-is; otherwise any existing TTL is deleted.
Metadata is stored only when the option is present. -/
def kvPut (s : KVState) (k v : String) (o : KVPutOptions) (nowSeconds : Nat) :
    KVState :=
  let store := mapSet s.store k v
  let ttls :=
    if truthyNum o.expirationTtl then
      mapSet s.ttls k (nowSeconds + o.expirationTtl.getD 0)
    else if truthyNum o.expiration then
      mapSet s.ttls k (o.expiration.getD 0)
    else
      mapDelete s.ttls k
  let metadata :=
    match o.metadata with
    | some m => mapSet s.metadata k m
    | none => s.metadata
  ⟨store, ttls, metadata⟩

/-- `delete(key)`. -/
def kvDelete (s : KVState) (k : String) : KVState := cleanupKey s k

/-- JS `key.startsWith(p)`, expressed on the character lists (the
built-in `String.startsWith` is not kernel-reducible). -/
def strStartsWith (s p : String) : Bool := p.data.isPrefixOf s.data

/-- One key record of a `list()` result. -/
structure KVListKey where
  name : String
  expiration : Option Nat
  metadata : Option Nat
deriving DecidableEq, Repr

/-- The `for (const [key] of store.entries())` loop body of `list()`:
matching expired keys are collected into `expired`, matching live keys are
pushed onto `keys`, and the loop breaks once `keys.length >= limit`. -/
def kvListGo (s : KVState) (nowSeconds : Nat) (pfx : String) (lim : Nat) :
    List (String × String) → List KVListKey → List String →
    List KVListKey × List String
  | [], keys, expired => (keys, expired)
  | (k, _) :: rest, keys, expired =>
      if strStartsWith k pfx then
        if isExpiredAt s k nowSeconds then
          kvListGo s nowSeconds pfx lim rest keys (expired ++ [k])
        else
          let keys' := keys ++ [⟨k, mapGet s.ttls k, mapGet s.metadata k⟩]
          if lim ≤ keys'.length then (keys', expired)
          else kvListGo s nowSeconds pfx lim rest keys' expired
      else
        kvListGo s nowSeconds pfx lim rest keys expired

/-- `list(options)` at the single snapshot `nowSeconds`: iterate the backing
store without mutating it, then delete the collected expired keys in a
second pass, and report `list_complete = keys.length < limit`. -/
def kvList (s : KVState) (pfx : Option String) (lim : Option Nat)
    (nowSeconds : Nat) : (List KVListKey × Bool) × KVState :=
  let p := pfx.getD ""
  let l := lim.getD 1000
  let r := kvListGo s nowSeconds p l s.store [] []
  ((r.1, decide (r.1.length < l)), r.2.foldl cleanupKey s)

/-- Construction-time state of `createMockKV()`. -/
def kvInit : KVState := ⟨[], [], []⟩

/-- `_reset()`: clear all three maps. -/
def kvReset (_s : KVState) : KVState := ⟨[], [], []⟩

/-- C1: putting `k` with `expirationTtl = t > 0` at snapshot `T` stores the
value; a `get` whose single snapshot is `T + t - 1` returns the value and
leaves the state untouched, while a `get` whose snapshot is `T + t + 1`
returns `null` and removes `k` from the backing store map, the TTL map and
the metadata map. -/
theorem kv_ttl_boundary (s : KVState) (k v : String) (t T : Nat)
    (ht : 0 < t) :
    let s1 := kvPut s k v ⟨some t, none, none⟩ T
    ((kvGet s1 k (T + t - 1)).1 = some v ∧ (kvGet s1 k (T + t - 1)).2 = s1) ∧
    ((kvGet s1 k (T + t + 1)).1 = none ∧
      mapGet (kvGet s1 k (T + t + 1)).2.store k = none ∧
      mapGet (kvGet s1 k (T + t + 1)).2.ttls k = none ∧
      mapGet (kvGet s1 k (T + t + 1)).2.metadata k = none) := by
  intro s1
  have httl : mapGet s1.ttls k = some (T + t) := by
    have hne : truthyNum (some t) = true := by
      simp [truthyNum, Nat.pos_iff_ne_zero.mp ht]
    simp [s1, kvPut, hne, mapGet_mapSet_self]
  have hnotexp : isExpiredAt s1 k (T + t - 1) = false := by
    simp only [isExpiredAt, httl]
    simp only [decide_eq_false_iff_not, not_lt]
    omega
  have hexp : isExpiredAt s1 k (T + t + 1) = true := by
    simp only [isExpiredAt, httl]
    simp only [decide_eq_true_eq]
    omega
  have hget1 : kvGet s1 k (T + t - 1) = (mapGet s1.store k, s1) := by
    simp [kvGet, hnotexp]
  have hget2 : kvGet s1 k (T + t + 1) = (none, cleanupKey s1 k) := by
    simp [kvGet, hexp]
  refine ⟨⟨?_, ?_⟩, ?_, ?_, ?_, ?_⟩
  · rw [hget1]
    simp [s1, kvPut, mapGet_mapSet_self]
  · rw [hget1]
  · rw [hget2]
  · rw [hget2]
    simp [cleanupKey, mapGet_mapDelete_self]
  · rw [hget2]
    simp [cleanupKey, mapGet_mapDelete_self]
  · rw [hget2]
    simp [cleanupKey, mapGet_mapDelete_self]

/-- C1 witness: the boundary behaviour at the concrete instance
`s = kvInit`, `k = "k"`, `v = "v"`, `t = 3`, `T = 10`. -/
theorem kv_ttl_boundary_witness :
    0 < 3 ∧
    (let s1 := kvPut kvInit "k" "v" ⟨some 3, none, none⟩ 10
     ((kvGet s1 "k" (10 + 3 - 1)).1 = some "v" ∧
       (kvGet s1 "k" (10 + 3 - 1)).2 = s1) ∧
     ((kvGet s1 "k" (10 + 3 + 1)).1 = none ∧
       mapGet (kvGet s1 "k" (10 + 3 + 1)).2.store "k" = none ∧
       mapGet (kvGet s1 "k" (10 + 3 + 1)).2.ttls "k" = none ∧
       mapGet (kvGet s1 "k" (10 + 3 + 1)).2.metadata "k" = none)) :=
  ⟨by decide, kv_ttl_boundary kvInit "k" "v" 3 10 (by decide)⟩

/-- C9: a zero `expirationTtl` or a zero `expiration` is falsy in `put`'s
option checks, so the put behaves exactly as if no TTL option were supplied:
any existing TTL for the key is deleted and the freshly stored value is
returned by `get` at every later snapshot, with no cleanup side effect. -/
theorem kv_put_zero_ttl (s : KVState) (k v : String) (T T' : Nat) :
    kvPut s k v ⟨some 0, none, none⟩ T = kvPut s k v ⟨none, none, none⟩ T ∧
    kvPut s k v ⟨none, some 0, none⟩ T = kvPut s k v ⟨none, none, none⟩ T ∧
    mapGet (kvPut s k v ⟨some 0, none, none⟩ T).ttls k = none ∧
    (kvGet (kvPut s k v ⟨some 0, none, none⟩ T) k T').1 = some v ∧
    (kvGet (kvPut s k v ⟨some 0, none, none⟩ T) k T').2 =
      kvPut s k v ⟨some 0, none, none⟩ T := by
  have hexp : isExpiredAt (kvPut s k v ⟨some 0, none, none⟩ T) k T' = false := by
    simp [isExpiredAt, kvPut, truthyNum, mapGet_mapDelete_self]
  have hget : kvGet (kvPut s k v ⟨some 0, none, none⟩ T) k T' =
      (mapGet (kvPut s k v ⟨some 0, none, none⟩ T).store k,
        kvPut s k v ⟨some 0, none, none⟩ T) := by
    simp [kvGet, hexp]
  refine ⟨?_, ?_, ?_, ?_, ?_⟩
  · simp [kvPut, truthyNum]
  · simp [kvPut, truthyNum]
  · simp [kvPut, truthyNum, mapGet_mapDelete_self]
  · rw [hget]
    simp [kvPut, mapGet_mapSet_self]
  · rw [hget]

/-- Loop invariant of `list()`'s single iteration pass: keys accumulated in
the result are live at the snapshot, keys accumulated for cleanup are
expired at the same snapshot. -/
theorem kvListGo_spec (s : KVState) (nowSeconds : Nat) (pfx : String)
    (lim : Nat) :
    ∀ (entries : List (String × String)) (keys : List KVListKey)
      (expired : List String),
      (∀ ki ∈ keys, isExpiredAt s ki.name nowSeconds = false) →
      (∀ k ∈ expired, isExpiredAt s k nowSeconds = true) →
      (∀ ki ∈ (kvListGo s nowSeconds pfx lim entries keys expired).1,
          isExpiredAt s ki.name nowSeconds = false) ∧
      (∀ k ∈ (kvListGo s nowSeconds pfx lim entries keys expired).2,
          isExpiredAt s k nowSeconds = true) := by
  intro entries
  induction entries with
  | nil =>
      intro keys expired hk he
      exact ⟨hk, he⟩
  | cons hd tl ih =>
      obtain ⟨k, v⟩ := hd
      intro keys expired hk he
      by_cases hp : strStartsWith k pfx
      · by_cases hx : isExpiredAt s k nowSeconds = true
        · have he' : ∀ k' ∈ expired ++ [k],
              isExpiredAt s k' nowSeconds = true := by
            intro k' hk'
            rcases List.mem_append.mp hk' with hm | hm
            · exact he _ hm
            · rw [List.mem_singleton.mp hm]
              exact hx
          simpa [kvListGo, hp, hx] using ih keys (expired ++ [k]) hk he'
        · have hk' : ∀ ki ∈ keys ++
              [(⟨k, mapGet s.ttls k, mapGet s.metadata k⟩ : KVListKey)],
              isExpiredAt s ki.name nowSeconds = false := by
            intro ki hki
            rcases List.mem_append.mp hki with hm | hm
            · exact hk _ hm
            · rw [List.mem_singleton.mp hm]
              simpa using hx
          by_cases hl : lim ≤ keys.length + 1
          · refine ⟨?_, ?_⟩
            · intro ki hki
              apply hk'
              simpa [kvListGo, hp, hx, hl] using hki
            · intro k' hk''
              apply he
              simpa [kvListGo, hp, hx, hl] using hk''
          · simpa [kvListGo, hp, hx, hl] using
              ih (keys ++ [⟨k, mapGet s.ttls k, mapGet s.metadata k⟩])
                expired hk' he
      · simpa [kvListGo, hp] using ih keys expired hk he

/-- The second cleanup pass of `list()` leaves the stored value of any key
not in the cleanup list untouched. -/
theorem foldl_cleanup_store_other (l : List String) (s : KVState)
    (k : String) (h : k ∉ l) :
    mapGet (l.foldl cleanupKey s).store k = mapGet s.store k := by
  induction l generalizing s with
  | nil => rfl
  | cons hd tl ih =>
      have h1 : k ≠ hd := fun hk => h (by simp [hk])
      have h2 : k ∉ tl := fun hk => h (by simp [hk])
      rw [List.foldl_cons, ih _ h2]
      simp [cleanupKey, mapGet_mapDelete_ne _ _ _ (Ne.symm h1)]

/-- C2 (amended): a single `list()` call evaluates every touched key against
its one snapshot timestamp: every returned key is live at that snapshot
(its recorded expiration is not strictly before the snapshot), and a key is
removed from the backing store by the call's second cleanup pass only when
it is expired at that same snapshot (expiration strictly before it).  (The
frozen claim says keys whose expiration is *at or before* the snapshot are
excluded; in fact a key whose expiration equals the snapshot is returned,
see the counterexample.) -/
theorem kv_list_snapshot (s : KVState) (pfx : Option String)
    (lim : Option Nat) (nowSeconds : Nat) :
    (∀ ki ∈ (kvList s pfx lim nowSeconds).1.1,
        isExpiredAt s ki.name nowSeconds = false) ∧
    (∀ k, mapGet ((kvList s pfx lim nowSeconds).2).store k = none →
        mapGet s.store k = none ∨ isExpiredAt s k nowSeconds = true) := by
  have hspec := kvListGo_spec s nowSeconds (pfx.getD "") (lim.getD 1000)
    s.store [] [] (by simp) (by simp)
  constructor
  · intro ki hki
    exact hspec.1 ki hki
  · intro k hnone
    by_cases hmem : k ∈ (kvListGo s nowSeconds (pfx.getD "") (lim.getD 1000)
        s.store [] []).2
    · exact Or.inr (hspec.2 k hmem)
    · refine Or.inl ?_
      rw [← foldl_cleanup_store_other _ s k hmem]
      exact hnone

/-- C2 witness: instantiating the amended list theorem on a concrete store
(`"a"` live, `"b"` expired at snapshot 5) and discharging both membership
hypotheses there. -/
theorem kv_list_snapshot_witness :
    isExpiredAt ⟨[("a", "1"), ("b", "2")], [("b", 3)], []⟩ "a" 5 = false ∧
    (mapGet (KVState.store ⟨[("a", "1"), ("b", "2")], [("b", 3)], []⟩) "b" =
        none ∨
      isExpiredAt ⟨[("a", "1"), ("b", "2")], [("b", 3)], []⟩ "b" 5 = true) :=
  ⟨(kv_list_snapshot ⟨[("a", "1"), ("b", "2")], [("b", 3)], []⟩ none none 5).1
      ⟨"a", none, none⟩ (by decide),
    (kv_list_snapshot ⟨[("a", "1"), ("b", "2")], [("b", 3)], []⟩ none none 5).2
      "b" (by decide)⟩

/-- Concrete store refuting the claim's "at or before" boundary: key `"k"`
has recorded expiration 5, equal to the call's snapshot timestamp. -/
def kvC2State : KVState := ⟨[("k", "v")], [("k", 5)], []⟩

/-- C2 counterexample: at snapshot 5, `list()` *returns* the key whose
recorded expiration is exactly 5 (expiration at — not strictly before — the
snapshot) and does not remove it from the backing store, refuting the
claim that every key with expiration at or before the snapshot is excluded. -/
theorem kv_list_at_or_before_cx :
    mapGet kvC2State.ttls "k" = some 5 ∧
    (kvList kvC2State none none 5).1.1 = [⟨"k", some 5, none⟩] ∧
    mapGet ((kvList kvC2State none none 5).2).store "k" = some "v" := by
  decide

/-! ## RelationalQueryEngine (`src/cloudflare/d1.ts`, corrected revision) -/

/-- A JavaScript value as seen by the D1 mock's dispatch function.  Object
fields are kept in enumeration (insertion) order; `null` and `undefined`
are distinct values, as in JS. -/
inductive JSVal where
  | null
  | undef
  | bool (b : Bool)
  | num (n : Int)
  | str (s : String)
  | arr (elems : List JSVal)
  | obj (fields : List (String × JSVal))

/-- JS truthiness of a value. -/
def truthy : JSVal → Bool
  | .null => false
  | .undef => false
  | .bool b => b
  | .num n => n != 0
  | .str s => s != ""
  | .arr _ => true
  | .obj _ => true

/-- `typeof v === 'object'` — true for `null`, arrays and plain objects. -/
def typeofIsObject : JSVal → Bool
  | .null => true
  | .arr _ => true
  | .obj _ => true
  | _ => false

/-- `'f' in v` for the values that can reach that test in the mock
(a plain object owns exactly its listed fields; an array row has no
named own properties here). -/
def hasField (v : JSVal) (f : String) : Bool :=
  match v with
  | .obj fields => fields.any (fun p => p.1 == f)
  | _ => false

/-- `null` or `undefined`. -/
def nullish : JSVal → Bool
  | .null => true
  | .undef => true
  | _ => false

/-- JS nullish coalescing `a ?? b`. -/
def coalesce (a b : JSVal) : JSVal := if nullish a then b else a

/-- Engine-level state of `createMockD1Database()`: the `queries` and
`bindings` history arrays and the injectable dispatch function `mockFn`. -/
structure D1Engine where
  queries : List String
  bindings : List (List JSVal)
  mockFn : Option (String → List JSVal → JSVal)

/-- A prepared statement: immutable `query` text plus the single mutable
bound-value slot `boundValues`. -/
structure D1Stmt where
  query : String
  boundValues : List JSVal

/-- `prepare(query)`: a fresh statement with an empty bound-value slot;
the engine state is untouched. -/
def d1Prepare (q : String) : D1Stmt := ⟨q, []⟩

/-- `bind(...values)`: replace the bound-value slot wholesale and append
one entry to the owning engine's binding history; the query history is not
touched. -/
def d1Bind (e : D1Engine) (st : D1Stmt) (values : List JSVal) :
    D1Stmt × D1Engine :=
  (⟨st.query, values⟩, ⟨e.queries, e.bindings ++ [values], e.mockFn⟩)

/-- The `queries.push(query)` performed at the top of every terminal call. -/
def d1PushQuery (e : D1Engine) (q : String) : D1Engine :=
  ⟨e.queries ++ [q], e.bindings, e.mockFn⟩

/-- `createDefaultMeta()` as a JS object, fields in literal order. -/
def d1DefaultMetaFields : List (String × JSVal) :=
  [("duration", .num 0), ("changes", .num 0), ("last_row_id", .num 0),
   ("rows_read", .num 0), ("rows_written", .num 0), ("size_after", .num 0),
   ("changed_db", .bool false)]

def d1DefaultMeta : JSVal := .obj d1DefaultMetaFields

/-- `{ results, success: true, meta: createDefaultMeta() }`. -/
def d1WrapResults (rows : List JSVal) : JSVal :=
  .obj [("results", .arr rows), ("success", .bool true),
        ("meta", d1DefaultMeta)]

/-- `{ ...createDefaultMeta(), changes: 1, rows_written: 1, last_row_id: 1,
changed_db: true }` — the object spread keeps each overridden field at its
original position. -/
def d1SyntheticMeta : JSVal :=
  .obj (mapSet (mapSet (mapSet (mapSet d1DefaultMetaFields
    "changes" (.num 1)) "rows_written" (.num 1)) "last_row_id" (.num 1))
    "changed_db" (.bool true))

/-- `run()`'s synthetic one-affected-row result. -/
def d1SyntheticRun : JSVal :=
  .obj [("results", .arr []), ("success", .bool true),
        ("meta", d1SyntheticMeta)]

/-- Value returned by `first()` from the dispatch result: `result[0] ?? null`
for an array (an out-of-range index is `undefined`), otherwise the result
itself. -/
def d1RespFirst (r : JSVal) : JSVal :=
  match r with
  | .arr xs => coalesce (xs.headD .undef) .null
  | r => r

/-- Value returned by `all()` from the dispatch result: an array is used as
the row set; a truthy object is wrapped as a single row; anything else
falls through to the empty result. -/
def d1RespAll (r : JSVal) : JSVal :=
  match r with
  | .arr rows => d1WrapResults rows
  | r =>
      if truthy r && typeofIsObject r then d1WrapResults [r]
      else d1WrapResults []

/-- Value returned by `run()` from the dispatch result: a truthy object
carrying a `meta` field is passed through whole; anything else yields the
synthetic affected-row result. -/
def d1RespRun (r : JSVal) : JSVal :=
  if truthy r && typeofIsObject r && hasField r "meta" then r
  else d1SyntheticRun

/-- The per-row projection of `raw()`: a non-null `object` row (arrays
included) becomes `Object.values(row)`; any other row passes through. -/
def rawProject (row : JSVal) : JSVal :=
  match row with
  | .obj fields => .arr (fields.map (fun p => p.2))
  | .arr xs => .arr xs
  | r => r

/-- Value returned by `raw()` from the dispatch result: only an array is
projected row by row; every non-array dispatch result yields `[]`. -/
def d1RespRaw (r : JSVal) : JSVal :=
  match r with
  | .arr rows => .arr (rows.map rawProject)
  | _ => .arr []

/-- `first()`: push the query, then compute the result value. -/
def d1First (e : D1Engine) (st : D1Stmt) : JSVal × D1Engine :=
  (match e.mockFn with
   | some f => d1RespFirst (f st.query st.boundValues)
   | none => JSVal.null,
   d1PushQuery e st.query)

/-- `all()`. -/
def d1All (e : D1Engine) (st : D1Stmt) : JSVal × D1Engine :=
  (match e.mockFn with
   | some f => d1RespAll (f st.query st.boundValues)
   | none => d1WrapResults [],
   d1PushQuery e st.query)

/-- `run()`. -/
def d1Run (e : D1Engine) (st : D1Stmt) : JSVal × D1Engine :=
  (match e.mockFn with
   | some f => d1RespRun (f st.query st.boundValues)
   | none => d1SyntheticRun,
   d1PushQuery e st.query)

/-- `raw()`. -/
def d1Raw (e : D1Engine) (st : D1Stmt) : JSVal × D1Engine :=
  (match e.mockFn with
   | some f => d1RespRaw (f st.query st.boundValues)
   | none => JSVal.arr [],
   d1PushQuery e st.query)

/-- The four terminal execution methods of a prepared statement. -/
inductive D1TermKind where
  | first
  | all
  | run
  | raw

/-- Execute one terminal call of the given kind. -/
def d1Exec (tk : D1TermKind) (e : D1Engine) (st : D1Stmt) :
    JSVal × D1Engine :=
  match tk with
  | .first => d1First e st
  | .all => d1All e st
  | .run => d1Run e st
  | .raw => d1Raw e st

/-- Construction-time state of `createMockD1Database()`. -/
def d1Init : D1Engine := ⟨[], [], none⟩

/-- `_reset()`: clear both histories and uninstall the dispatch function. -/
def d1Reset (_e : D1Engine) : D1Engine := ⟨[], [], none⟩

/-- C3: binding a prepared statement twice and executing it twice (with any
of the four terminal calls each time) appends exactly the two bound-value
lists to the binding history and exactly two copies of the query text to
the query history; each bind replaces the bound-value slot wholesale, bind
never touches the query history, and execution never touches the binding
history. -/
theorem d1_bind_exec_histories (e : D1Engine) (q : String)
    (v1 v2 : List JSVal) (tk1 tk2 : D1TermKind) :
    (d1Bind (d1Exec tk1 (d1Bind e (d1Prepare q) v1).2
        (d1Bind e (d1Prepare q) v1).1).2 (d1Bind e (d1Prepare q) v1).1
        v2).1.boundValues = v2 ∧
    (d1Bind e (d1Prepare q) v1).1.boundValues = v1 ∧
    (d1Bind e (d1Prepare q) v1).2.queries = e.queries ∧
    (d1Exec tk1 (d1Bind e (d1Prepare q) v1).2
        (d1Bind e (d1Prepare q) v1).1).2.bindings =
      (d1Bind e (d1Prepare q) v1).2.bindings ∧
    (d1Exec tk2
        (d1Bind (d1Exec tk1 (d1Bind e (d1Prepare q) v1).2
            (d1Bind e (d1Prepare q) v1).1).2
          (d1Bind e (d1Prepare q) v1).1 v2).2
        (d1Bind (d1Exec tk1 (d1Bind e (d1Prepare q) v1).2
            (d1Bind e (d1Prepare q) v1).1).2
          (d1Bind e (d1Prepare q) v1).1 v2).1).2.queries =
      e.queries ++ [q, q] ∧
    (d1Exec tk2
        (d1Bind (d1Exec tk1 (d1Bind e (d1Prepare q) v1).2
            (d1Bind e (d1Prepare q) v1).1).2
          (d1Bind e (d1Prepare q) v1).1 v2).2
        (d1Bind (d1Exec tk1 (d1Bind e (d1Prepare q) v1).2
            (d1Bind e (d1Prepare q) v1).1).2
          (d1Bind e (d1Prepare q) v1).1 v2).1).2.bindings =
      e.bindings ++ [v1, v2] := by
  have hexec : ∀ (tk : D1TermKind) (e' : D1Engine) (st' : D1Stmt),
      (d1Exec tk e' st').2 = d1PushQuery e' st'.query := by
    intro tk e' st'
    cases tk <;> rfl
  refine ⟨rfl, rfl, rfl, ?_, ?_, ?_⟩ <;>
    simp [hexec, d1Bind, d1Prepare, d1PushQuery]

/-- Engine whose dispatch function returns the single non-array object
`{id: 1, name: 'A'}`. -/
def d1SingleObjEngine : D1Engine :=
  ⟨[], [], some (fun _ _ => .obj [("id", .num 1), ("name", .str "A")])⟩

/-- C4 counterexample: when the dispatch function returns the single
non-array object `{id: 1, name: 'A'}`, `raw()` yields `[]`, not the claimed
`[1, 'A']` — only an array dispatch result is projected. -/
theorem d1_raw_single_object_cx :
    (d1Raw d1SingleObjEngine (d1Prepare "q")).1 = JSVal.arr [] ∧
    JSVal.arr [] ≠ JSVal.arr [.num 1, .str "A"] :=
  ⟨rfl, by simp⟩

/-- C4 (amended): `raw()` on the single non-array dispatch object
`{id: 1, name: 'A'}` yields the empty array `[]`; on the array
`[{id: 1, name: 'A'}, {id: 2, name: 'B'}]` it yields `[[1, 'A'], [2, 'B']]`,
preserving each row's field-enumeration order and the overall row order. -/
theorem d1_raw_projection (qs : List String) (bs : List (List JSVal))
    (q : String) (bv : List JSVal) :
    (d1Raw ⟨qs, bs, some (fun _ _ =>
        .obj [("id", .num 1), ("name", .str "A")])⟩ ⟨q, bv⟩).1 =
      JSVal.arr [] ∧
    (d1Raw ⟨qs, bs, some (fun _ _ =>
        .arr [.obj [("id", .num 1), ("name", .str "A")],
              .obj [("id", .num 2), ("name", .str "B")]])⟩ ⟨q, bv⟩).1 =
      JSVal.arr [.arr [.num 1, .str "A"], .arr [.num 2, .str "B"]] :=
  ⟨rfl, rfl⟩

/-- C5 (amended): when the dispatch result is nullish (or no dispatch
function is installed), `all()` resolves to the empty result set with the
all-zero default meta and `run()` resolves to the synthetic one-affected-row
result; `first()` resolves to `null` when no dispatch function is installed
or the dispatch returns `null`, but to `undefined` (not `null`) when the
dispatch returns `undefined` — the nullish dispatch value is passed through. -/
theorem d1_nullish_defaults (e : D1Engine) (st : D1Stmt)
    (h : ∀ f, e.mockFn = some f →
      nullish (f st.query st.boundValues) = true) :
    (d1All e st).1 = d1WrapResults [] ∧
    (d1Run e st).1 = d1SyntheticRun ∧
    (d1First e st).1 = (match e.mockFn with
      | none => JSVal.null
      | some f => f st.query st.boundValues) := by
  cases hm : e.mockFn with
  | none => simp [d1All, d1Run, d1First, hm]
  | some f =>
      have hn := h f hm
      cases hv : f st.query st.boundValues <;>
        simp [nullish, hv] at hn <;>
        simp [d1All, d1Run, d1First, d1RespAll, d1RespRun, d1RespFirst,
          truthy, typeofIsObject, hasField, hm, hv]

/-- Engine whose dispatch function returns `null`. -/
def d1NullEngine : D1Engine := ⟨[], [], some (fun _ _ => JSVal.null)⟩

/-- C5 witness: the amended nullish-default theorem at the concrete engine
whose dispatch returns `null`, discharging the nullish hypothesis there. -/
theorem d1_nullish_defaults_witness :
    (∀ f, d1NullEngine.mockFn = some f → nullish (f "q" []) = true) ∧
    ((d1All d1NullEngine ⟨"q", []⟩).1 = d1WrapResults [] ∧
      (d1Run d1NullEngine ⟨"q", []⟩).1 = d1SyntheticRun ∧
      (d1First d1NullEngine ⟨"q", []⟩).1 = JSVal.null) := by
  have h : ∀ f, d1NullEngine.mockFn = some f → nullish (f "q" []) = true := by
    intro f hf
    cases Option.some.inj hf
    rfl
  exact ⟨h, d1_nullish_defaults d1NullEngine ⟨"q", []⟩ h⟩

/-- Engine whose dispatch function returns `undefined`. -/
def d1UndefEngine : D1Engine := ⟨[], [], some (fun _ _ => JSVal.undef)⟩

/-- C5 counterexample: when the dispatch function returns `undefined`,
`first()` resolves to `undefined`, which is a different value from the
`null` the claim promises. -/
theorem d1_first_undef_cx :
    (d1First d1UndefEngine (d1Prepare "q")).1 = JSVal.undef ∧
    JSVal.undef ≠ JSVal.null :=
  ⟨rfl, fun h => JSVal.noConfusion h⟩

/-! ## ServiceBindingClient (`src/cloudflare/fetcher.ts`, bounded-history
revision)

The response side of `fetch` (custom handler, string rules before regex
rules, default response) computes a `Response` from the state without
mutating it; the claims below concern the state — the recorded call
history, its bound, and `_reset`/`_setMaxCallHistory` — which is what is
modelled. -/

/-- One recorded fetch call. -/
structure FetchCall where
  url : String
  method : String
  headers : List (String × String)
  body : Option String
  timestamp : Nat
deriving DecidableEq, Repr

/-- A configured mock response (`status`, `headers`, `body`). -/
structure RespConfig where
  status : Option Nat
  headers : List (String × String)
  body : Option JSVal

/-- A response-rule match key: an exact-substring string pattern or a
regex pattern (held by its source text; no claim evaluates matching). -/
inductive FPattern where
  | strPat (s : String)
  | regexPat (source : String)

/-- State of `createMockFetcher(config?)`. -/
structure FetcherState where
  calls : List FetchCall
  responses : List (FPattern × RespConfig)
  customHandler : Option (String → RespConfig)
  defaultResponse : RespConfig
  maxCallHistory : Nat

/-- The initial `defaultResponse`: `{ status: 200, body: {success: true} }`. -/
def initialDefaultResponse : RespConfig :=
  ⟨some 200, [], some (.obj [("success", .bool true)])⟩

/-- Construction-time state of `createMockFetcher(config?)`; the history
bound is `config?.maxCallHistory ?? 1000`. -/
def fetcherInitWith (cfgMax : Option Nat) : FetcherState :=
  ⟨[], [], none, initialDefaultResponse, cfgMax.getD 1000⟩

/-- Construction-time state with the default configuration. -/
def fetcherInit : FetcherState := fetcherInitWith none

/-- The `while (calls.length > max) calls.shift()` eviction loop: drop the
oldest records from the front until at most `m` remain. -/
def evictOldest {α : Type} : List α → Nat → List α
  | [], _ => []
  | c :: rest, m =>
      if m < rest.length + 1 then evictOldest rest m else c :: rest

/-- `fetch(...)`: append the new call record, then run the eviction loop.
The response computed afterwards does not change the state. -/
def fetcherFetch (s : FetcherState) (call : FetchCall) : FetcherState :=
  ⟨evictOldest (s.calls ++ [call]) s.maxCallHistory, s.responses,
    s.customHandler, s.defaultResponse, s.maxCallHistory⟩

/-- `_reset()`: clear calls and rules, uninstall the custom handler and
restore the initial default response.  `maxCallHistory` is not touched. -/
def fetcherReset (s : FetcherState) : FetcherState :=
  ⟨[], [], none, initialDefaultResponse, s.maxCallHistory⟩

/-- `_setMaxCallHistory(max)`: store the new bound, then immediately run
the same eviction loop against the existing history. -/
def setMaxCallHistory (s : FetcherState) (max : Nat) : FetcherState :=
  ⟨evictOldest s.calls max, s.responses, s.customHandler,
    s.defaultResponse, max⟩

/-- The eviction loop keeps exactly the most recent `m` records: it equals
dropping the excess from the front. -/
theorem evictOldest_eq_drop {α : Type} (l : List α) (m : Nat) :
    evictOldest l m = l.drop (l.length - m) := by
  induction l with
  | nil => simp [evictOldest]
  | cons c rest ih =>
      by_cases h : m < rest.length + 1
      · have harith : rest.length + 1 - m = (rest.length - m) + 1 := by omega
        simp [evictOldest, h, harith, ih]
      · have harith : rest.length + 1 - m = 0 := by omega
        simp [evictOldest, h, harith]

/-- C10: `_setMaxCallHistory(max)` (a total function, so it terminates for
every `max ≥ 0`) immediately truncates the existing history to at most
`max` records, evicting from the oldest end: the surviving records are
exactly the final `max`-record suffix of the old history, in their
original relative order, and the new bound is stored. -/
theorem set_max_call_history_truncates (s : FetcherState) (max : Nat) :
    (setMaxCallHistory s max).calls = s.calls.drop (s.calls.length - max) ∧
    (setMaxCallHistory s max).calls.length = min s.calls.length max ∧
    (setMaxCallHistory s max).maxCallHistory = max := by
  refine ⟨?_, ?_, rfl⟩
  · simp [setMaxCallHistory, evictOldest_eq_drop]
  · simp only [setMaxCallHistory, evictOldest_eq_drop, List.length_drop]
    omega

/-- The `i`-th call issued in the C6 scenario, identified by its
timestamp. -/
def fetchNthCall (i : Nat) : FetchCall := ⟨"u", "GET", [], none, i⟩

/-- Issue calls number `1 .. n` through a default-configured client
(`maxCallHistory = 1000`). -/
def issueUpTo : Nat → FetcherState
  | 0 => fetcherInit
  | n + 1 => fetcherFetch (issueUpTo n) (fetchNthCall (n + 1))

/-- Closed form of the C6 scenario: after `n` calls the history is the
most recent 1000-record suffix of all calls issued so far, and the bound
is unchanged. -/
theorem issueUpTo_spec (n : Nat) :
    (issueUpTo n).maxCallHistory = 1000 ∧
    (issueUpTo n).calls =
      ((List.range' 1 n).map fetchNthCall).drop (n - 1000) := by
  induction n with
  | zero => exact ⟨rfl, rfl⟩
  | succ n ih =>
      obtain ⟨hm, hc⟩ := ih
      constructor
      · simpa [issueUpTo, fetcherFetch] using hm
      · have hlen : ((List.range' 1 n).map fetchNthCall).length = n := by
          simp
      
        have hdrop : n - 1000 ≤ ((List.range' 1 n).map fetchNthCall).length := by
          omega
        have hconcat :
            (List.range' 1 n).map fetchNthCall ++ [fetchNthCall (n + 1)] =
              (List.range' 1 (n + 1)).map fetchNthCall := by
          rw [List.range'_concat]
          simp [Nat.add_comm 1 n]
        have step : (issueUpTo (n + 1)).calls =
            evictOldest ((issueUpTo n).calls ++ [fetchNthCall (n + 1)])
              1000 := by
          simp [issueUpTo, fetcherFetch, hm]
        rw [step, hc, evictOldest_eq_drop,
          ← List.drop_append_of_le_length hdrop, hconcat,
          List.drop_drop]
        have hlen2 : ((List.range' 1 (n + 1)).map fetchNthCall).length
            = n + 1 := by simp
        have hlen3 :
            (((List.range' 1 (n + 1)).map fetchNthCall).drop
              (n - 1000)).length = (n + 1) - (n - 1000) := by
          rw [List.length_drop, hlen2]
        rw [hlen3]
        have harith : n - 1000 + ((n + 1) - (n - 1000) - 1000) =
            n + 1 - 1000 := by omega
        rw [harith]

/-- C6: issuing 1001 calls through a default-configured client
(`maxCallHistory = 1000`) leaves exactly 1000 records — call #1 evicted,
call #1001 present, the survivors being calls #2..#1001 in their original
order.  In general, after every `fetch` the history never exceeds
`maxCallHistory`, and the new history is the most recent suffix of the old
history extended by the new record (oldest evicted first, surviving order
preserved). -/
theorem fetcher_bounded_history :
    (issueUpTo 1001).calls = (List.range' 2 1000).map fetchNthCall ∧
    (issueUpTo 1001).calls.length = 1000 ∧
    fetchNthCall 1 ∉ (issueUpTo 1001).calls ∧
    fetchNthCall 1001 ∈ (issueUpTo 1001).calls ∧
    (∀ (s : FetcherState) (c : FetchCall),
      (fetcherFetch s c).calls.length ≤ s.maxCallHistory) ∧
    (∀ (s : FetcherState) (c : FetchCall),
      (fetcherFetch s c).calls =
        (s.calls ++ [c]).drop ((s.calls.length + 1) - s.maxCallHistory)) := by
  have hsplit : List.range' 1 1001 = 1 :: List.range' 2 1000 := by
    have h := List.range'_succ 1 1000 1
    simpa using h
  have h1 : (issueUpTo 1001).calls =
      (List.range' 2 1000).map fetchNthCall := by
    rw [(issueUpTo_spec 1001).2, hsplit]
    simp
  refine ⟨h1, ?_, ?_, ?_, ?_, ?_⟩
  · rw [h1]
    simp
  · intro h
    obtain ⟨i, hi, hEq⟩ := List.mem_map.mp (h1 ▸ h)
    have hts : i = 1 := congrArg FetchCall.timestamp hEq
    have hge := (List.mem_range'_1.mp hi).1
    omega
  · rw [h1]
    exact List.mem_map.mpr ⟨1001, List.mem_range'_1.mpr (by omega), rfl⟩
  · intro s c
    simp only [fetcherFetch, evictOldest_eq_drop, List.length_drop,
      List.length_append, List.length_cons]
    omega
  · intro s c
    simp [fetcherFetch, evictOldest_eq_drop]

/-! ## ObjectStore (R2 bucket mock)

`put` normalizes its four accepted input shapes into one contiguous byte
buffer.  The claims exercise string payloads, for which encode/decode is
the identity, so the canonical buffer is represented by its text content
and its byte size by `String.utf8ByteSize` (what `TextEncoder` produces).
`generateEtag` draws from `Math.random()`; the draw is modelled as an
explicit oracle argument supplying the generated etag. -/

/-- Metadata of a stored R2 object. -/
structure R2ObjectMeta where
  key : String
  size : Nat
  uploaded : Nat
  httpEtag : String
  etag : String
  customMetadata : Option (List (String × String))
deriving DecidableEq, Repr

/-- A stored R2 object: canonical payload plus metadata. -/
structure StoredR2Object where
  body : String
  meta : R2ObjectMeta
deriving DecidableEq, Repr

/-- State of `createMockR2Bucket()`: the single backing store map. -/
structure R2State where
  store : List (String × StoredR2Object)
deriving DecidableEq, Repr

/-- `put(key, value, options)`: normalize the payload, draw a fresh etag,
and unconditionally replace any prior object at the key with a new record
whose `httpEtag` is the quoted etag and whose size is the byte length of
the payload.  Returns the new metadata. -/
def r2Put (s : R2State) (key value etag : String) (now : Nat)
    (customMetadata : Option (List (String × String))) :
    R2ObjectMeta × R2State :=
  let meta : R2ObjectMeta :=
    ⟨key, value.utf8ByteSize, now, "\"" ++ etag ++ "\"", etag, customMetadata⟩
  (meta, ⟨mapSet s.store key ⟨value, meta⟩⟩)

/-- `get(key)`: the retrieval handle over the stored object (or `null`). -/
def r2Get (s : R2State) (key : String) : Option StoredR2Object :=
  mapGet s.store key

/-- The `text()` materialization of a retrieval handle: decode the stored
bytes back to text. -/
def r2Text (o : StoredR2Object) : String := o.body

/-- `head(key)`: metadata only. -/
def r2Head (s : R2State) (key : String) : Option R2ObjectMeta :=
  (mapGet s.store key).map (fun o => o.meta)

/-- `delete(keys)`: remove each listed key; missing keys are ignored. -/
def r2Delete (s : R2State) (keys : List String) : R2State :=
  ⟨keys.foldl (fun m k => mapDelete m k) s.store⟩

/-- Construction-time state of `createMockR2Bucket()`. -/
def r2Init : R2State := ⟨[]⟩

/-- `_reset()`: clear the store. -/
def r2Reset (_s : R2State) : R2State := ⟨[]⟩

/-- C8: `put('k','hello')` then `get('k')` materialized as text returns
`'hello'` with reported size 5; a second `put('k','bye')` to the same key
fully replaces the object — text now `'bye'`, size 3 — and the stored etag
is the second draw, which differs from the first whenever the two random
draws differ. -/
theorem r2_put_get_replace (s : R2State) (e1 e2 : String) (t1 t2 : Nat)
    (hne : e1 ≠ e2) :
    ((r2Get (r2Put s "k" "hello" e1 t1 none).2 "k").map r2Text =
        some "hello") ∧
    (r2Put s "k" "hello" e1 t1 none).1.size = 5 ∧
    ((r2Head (r2Put s "k" "hello" e1 t1 none).2 "k").map R2ObjectMeta.size =
        some 5) ∧
    ((r2Get (r2Put (r2Put s "k" "hello" e1 t1 none).2 "k" "bye" e2 t2
        none).2 "k").map r2Text = some "bye") ∧
    (r2Put (r2Put s "k" "hello" e1 t1 none).2 "k" "bye" e2 t2
        none).1.size = 3 ∧
    ((r2Head (r2Put (r2Put s "k" "hello" e1 t1 none).2 "k" "bye" e2 t2
        none).2 "k").map R2ObjectMeta.etag = some e2) ∧
    e2 ≠ e1 := by
  have h5 : "hello".utf8ByteSize = 5 := by decide
  have h3 : "bye".utf8ByteSize = 3 := by decide
  refine ⟨?_, h5, ?_, ?_, h3, ?_, hne.symm⟩ <;>
    simp [r2Get, r2Head, r2Text, r2Put, mapGet_mapSet_self, h5, h3]

/-- C8 witness: the replace-and-fresh-etag behaviour at the concrete
instance `s = r2Init`, etag draws `"a"` then `"b"`. -/
theorem r2_put_get_replace_witness :
    ("a" : String) ≠ "b" ∧
    (((r2Get (r2Put r2Init "k" "hello" "a" 0 none).2 "k").map r2Text =
        some "hello") ∧
      (r2Put r2Init "k" "hello" "a" 0 none).1.size = 5 ∧
      ((r2Head (r2Put r2Init "k" "hello" "a" 0 none).2 "k").map
          R2ObjectMeta.size = some 5) ∧
      ((r2Get (r2Put (r2Put r2Init "k" "hello" "a" 0 none).2 "k" "bye" "b" 0
          none).2 "k").map r2Text = some "bye") ∧
      (r2Put (r2Put r2Init "k" "hello" "a" 0 none).2 "k" "bye" "b" 0
          none).1.size = 3 ∧
      ((r2Head (r2Put (r2Put r2Init "k" "hello" "a" 0 none).2 "k" "bye" "b" 0
          none).2 "k").map R2ObjectMeta.etag = some "b") ∧
      ("b" : String) ≠ "a") :=
  ⟨by decide, r2_put_get_replace r2Init "a" "b" 0 0 (by decide)⟩

/-! ## MetricsSink (`src/cloudflare/analytics.ts`) -/

/-- A recorded analytics data point.  The numeric `doubles` are modelled as
integers: no claim computes with their values, only with the record
structure. -/
structure AnalyticsDataPoint where
  indexes : Option (List String)
  doubles : Option (List Int)
  blobs : Option (List (List Nat))
  timestamp : Nat
deriving DecidableEq, Repr

/-- The optional argument of `writeDataPoint`. -/
structure AnalyticsInput where
  indexes : Option (List String)
  doubles : Option (List Int)
  blobs : Option (List (List Nat))
deriving DecidableEq, Repr

/-- `writeDataPoint(point?)`: append one entry stamped with the call-time
timestamp, storing whichever fields were supplied. -/
def writeDataPoint (pts : List AnalyticsDataPoint)
    (p : Option AnalyticsInput) (now : Nat) : List AnalyticsDataPoint :=
  pts ++ [⟨(p.map AnalyticsInput.indexes).getD none,
           (p.map AnalyticsInput.doubles).getD none,
           (p.map AnalyticsInput.blobs).getD none, now⟩]

/-- Construction-time state of `createMockAnalyticsEngine()`. -/
def analyticsInit : List AnalyticsDataPoint := []

/-- `_reset()`: clear the data-point log. -/
def analyticsReset (_pts : List AnalyticsDataPoint) :
    List AnalyticsDataPoint := []

/-- C7 (amended): from any reachable state — hence after any sequence of
mutating operations — each component's reset restores the exact
construction-time state (empty maps, empty histories, no dispatch
function or custom handler or rules, initial default response), with one
exception: the fetcher's `_reset` leaves `maxCallHistory` at its current
value instead of restoring the constructed bound (see the
counterexample). -/
theorem reset_restores_construction (kv : KVState) (e : D1Engine)
    (r2 : R2State) (f : FetcherState) (pts : List AnalyticsDataPoint) :
    kvReset kv = kvInit ∧
    d1Reset e = d1Init ∧
    r2Reset r2 = r2Init ∧
    analyticsReset pts = analyticsInit ∧
    fetcherReset f =
      ⟨[], [], none, initialDefaultResponse, f.maxCallHistory⟩ :=
  ⟨rfl, rfl, rfl, rfl, rfl⟩

/-- C7 counterexample: on a default-configured fetcher
(`maxCallHistory = 1000` at construction), the mutating operation
`_setMaxCallHistory(5)` followed by `_reset()` leaves `maxCallHistory = 5`,
so the post-reset state differs from the construction-time state. -/
theorem fetcher_reset_max_history_cx :
    (fetcherReset (setMaxCallHistory fetcherInit 5)).maxCallHistory = 5 ∧
    fetcherInit.maxCallHistory = 1000 ∧
    fetcherReset (setMaxCallHistory fetcherInit 5) ≠ fetcherInit := by
  refine ⟨rfl, rfl, fun h => ?_⟩
  have h5 := congrArg FetcherState.maxCallHistory h
  simp [fetcherReset, setMaxCallHistory, fetcherInit, fetcherInitWith] at h5
